import Mathlib

/-!
# federation-v2: `pkg/kubefed2/federate/util.go`

A shallow embedding of the resource lookup (`LookupAPIResource`), the CRD builder
(`CrdForAPIResource`) and the two key-formatting helpers (`resourceKey`,
`groupQualifiedName`), followed by the properties proved about them.

Conventions of the embedding:

* Go strings are Lean `String`s; `len(s) == 0` is `s.length = 0`;
  `fmt.Sprintf("%s.%s", a, b)` is `a ++ "." ++ b`.
* `strings.ToLower` belongs to the Go standard library.  Every definition that
  uses it takes it as the parameter `toLower`, so the general theorems hold for
  any lowercasing function.  `asciiLower` is the instance used on concrete
  inputs; it agrees with `strings.ToLower` on ASCII strings.
* A `*T` that may be `nil` is an `Option T`.  `targetResource = &resource`
  takes the address of the loop variable, which holds a copy of the list
  element, so the later writes to `Group` and `Version` change the copy only.
* An `error` built by `fmt.Errorf` is a constructor of `LookupError` that keeps
  the formatted argument.
-/

namespace Federate

/-! ## Data model -/

/-- The type `metav1.APIResource`. -/
structure APIResource where
  Name : String
  SingularName : String
  Namespaced : Bool
  Group : String
  Version : String
  Kind : String
  Verbs : List String
  ShortNames : List String
  Categories : List String
  deriving DecidableEq, Repr

/-- The type `metav1.APIResourceList`: a GroupVersion string and its resources. -/
structure APIResourceList where
  GroupVersion : String
  APIResources : List APIResource
  deriving DecidableEq, Repr

/-- The type `schema.GroupVersion`. -/
structure GroupVersion where
  Group : String
  Version : String
  deriving DecidableEq, Repr

deriving instance DecidableEq for Except

/-- The discovery client as `LookupAPIResource` uses it: the two results
`(lists, err)` of its one call `client.ServerPreferredResources()`. -/
structure DiscoveryClient where
  ServerPreferredResources : List APIResourceList × Option String
  deriving DecidableEq, Repr

/-- The `*rest.Config` as `LookupAPIResource` uses it: the result of
`discovery.NewDiscoveryClientForConfig(config)`, a client or the error. -/
structure Config where
  NewDiscoveryClientForConfig : Except String DiscoveryClient

/-- The errors `LookupAPIResource` builds with `fmt.Errorf`, one constructor per
format string, carrying the formatted argument. -/
inductive LookupError where
  /-- The error "Error creating discovery client: %v". -/
  | creatingDiscoveryClient (err : String)
  /-- The error "Error listing api resources: %v". -/
  | listingAPIResources (err : String)
  /-- The error "Error parsing GroupVersion: %v". -/
  | parsingGroupVersion (err : String)
  /-- The error "Unable to find api resource named %q.". -/
  | unableToFind (key : String)
  deriving DecidableEq, Repr

/-- The type `apiextv1b1.ResourceScope`, a string type. -/
abbrev ResourceScope := String

/-- The constant `apiextv1b1.ClusterScoped`. -/
def ClusterScoped : ResourceScope := "Cluster"

/-- The constant `apiextv1b1.NamespaceScoped`. -/
def NamespaceScoped : ResourceScope := "Namespaced"

/-- The type `metav1.TypeMeta`. -/
structure TypeMeta where
  Kind : String
  APIVersion : String
  deriving DecidableEq, Repr

/-- The type `metav1.ObjectMeta`, with the one field the builder sets. -/
structure ObjectMeta where
  Name : String
  deriving DecidableEq, Repr

/-- The type `apiextv1b1.CustomResourceDefinitionNames`. -/
structure CustomResourceDefinitionNames where
  Plural : String
  Singular : String
  ShortNames : List String
  Kind : String
  ListKind : String
  deriving DecidableEq, Repr

/-- The type `apiextv1b1.CustomResourceDefinitionSpec`; `V` stands for
`apiextv1b1.CustomResourceValidation`, which the builder never inspects. -/
structure CustomResourceDefinitionSpec (V : Type) where
  Group : String
  Version : String
  Names : CustomResourceDefinitionNames
  Scope : ResourceScope
  Validation : Option V

/-- The type `apiextv1b1.CustomResourceDefinition`. -/
structure CustomResourceDefinition (V : Type) where
  TypeMeta : TypeMeta
  ObjectMeta : ObjectMeta
  Spec : CustomResourceDefinitionSpec V

/-! ## Library functions used by the code -/

/-- The instance of `strings.ToLower` used on concrete inputs: the letters
`A`..`Z` go to `a`..`z`, every other character is kept. -/
def asciiLower (s : String) : String :=
  ⟨s.data.map Char.toLower⟩

/-- Modelled from the spec: `schema.ParseGroupVersion` of k8s.io/apimachinery,
whose source is not part of this repository.  The empty string and "/" give
the empty group and version; a string without '/' is a version with the empty
group; a string with one '/' is split at it; more than one '/' is an error. -/
def ParseGroupVersion (gv : String) : Except String GroupVersion :=
  if gv.length = 0 ∨ gv = "/" then
    .ok { Group := "", Version := "" }
  else
    match gv.data.count '/' with
    | 0 => .ok { Group := "", Version := gv }
    | 1 => .ok { Group := ⟨gv.data.takeWhile (fun c => c != '/')⟩,
                 Version := ⟨(gv.data.dropWhile (fun c => c != '/')).drop 1⟩ }
    | _ => .error ("unexpected GroupVersion string: " ++ gv)

/-! ## The helpers `groupQualifiedName` and `resourceKey` -/

/-- The function `groupQualifiedName` (util.go, lines 128-133). -/
def groupQualifiedName (apiResource : APIResource) : String :=
  if apiResource.Group.length = 0 then
    apiResource.Name
  else
    apiResource.Name ++ "." ++ apiResource.Group

/-- The function `resourceKey` (util.go, lines 112-126). -/
def resourceKey (apiResource : APIResource) : String :=
  let group := if apiResource.Group.length = 0 then "core" else apiResource.Group
  let version := if apiResource.Version.length = 0 then "v1" else apiResource.Version
  apiResource.Name ++ "." ++ group ++ "/" ++ version

/-! ## `CrdForAPIResource` -/

/-- The function `CrdForAPIResource` (util.go, lines 30-56).  The fields of
`Names` the composite literal leaves out keep their zero values. -/
def CrdForAPIResource {V : Type} (apiResource : APIResource) (validation : Option V) :
    CustomResourceDefinition V :=
  let scope := if apiResource.Namespaced then NamespaceScoped else ClusterScoped
  { TypeMeta := { Kind := "CustomResourceDefinition",
                  APIVersion := "apiextensions.k8s.io/v1beta1" }
    ObjectMeta := { Name := groupQualifiedName apiResource }
    Spec := { Group := apiResource.Group
              Version := apiResource.Version
              Scope := scope
              Names := { Plural := apiResource.Name
                         Singular := ""
                         ShortNames := []
                         Kind := apiResource.Kind
                         ListKind := "" }
              Validation := validation } }

/-! ## `LookupAPIResource` -/

/-- The loop over `resource.ShortNames` (util.go, lines 84-89), as a function of
the value `targetResource` has on entry: the first short name whose lowercase
form equals `lowerKey` stores the resource and breaks; without one the value on
entry is kept. -/
def shortNameLoop (toLower : String → String) (lowerKey : String) (resource : APIResource) :
    List String → Option APIResource → Option APIResource
  | [], targetResource => targetResource
  | shortName :: rest, targetResource =>
    if lowerKey = toLower shortName then
      some resource
    else
      shortNameLoop toLower lowerKey resource rest targetResource

/-- The loop over `resourceList.APIResources` (util.go, lines 76-93), as a
function of the value `targetResource` has on entry.  A match on the plural
name, the singular name or the lowercased kind stores the resource and breaks
(lines 77-83); otherwise the short-name loop runs and the loop breaks when
`targetResource` is set after it (lines 90-92). -/
def resourceLoop (toLower : String → String) (lowerKey : String) :
    List APIResource → Option APIResource → Option APIResource
  | [], targetResource => targetResource
  | resource :: rest, targetResource =>
    if lowerKey = resource.Name ∨ lowerKey = resource.SingularName ∨
        lowerKey = toLower resource.Kind then
      some resource
    else
      let targetResource := shortNameLoop toLower lowerKey resource resource.ShortNames targetResource
      if targetResource.isSome then
        targetResource
      else
        resourceLoop toLower lowerKey rest targetResource

/-- The loop over `resourceLists` (util.go, lines 75-104), as a function of the
value `targetResource` has on entry.  When `targetResource` is set after the
inner loop, the GroupVersion of the current list is parsed: an error returns
from the function, otherwise the group and version are written to the target
and the loop breaks (lines 94-103). -/
def listLoop (toLower : String → String) (lowerKey : String) :
    List APIResourceList → Option APIResource → Except LookupError (Option APIResource)
  | [], targetResource => .ok targetResource
  | resourceList :: rest, targetResource =>
    match resourceLoop toLower lowerKey resourceList.APIResources targetResource with
    | some target =>
      match ParseGroupVersion resourceList.GroupVersion with
      | .error err => .error (.parsingGroupVersion err)
      | .ok gv => .ok (some { target with Group := gv.Group, Version := gv.Version })
    | none => listLoop toLower lowerKey rest none

/-- The function `LookupAPIResource` (util.go, lines 58-110). -/
def LookupAPIResource (toLower : String → String) (config : Config) (key : String) :
    Except LookupError APIResource :=
  match config.NewDiscoveryClientForConfig with
  | .error err => .error (.creatingDiscoveryClient err)
  | .ok client =>
    match client.ServerPreferredResources with
    | (_, some err) => .error (.listingAPIResources err)
    | (resourceLists, none) =>
      let lowerKey := toLower key
      match listLoop toLower lowerKey resourceLists none with
      | .error err => .error err
      | .ok (some targetResource) => .ok targetResource
      | .ok none => .error (.unableToFind key)

/-- A configuration whose discovery query succeeds with the given lists. -/
def configOf (resourceLists : List APIResourceList) : Config :=
  { NewDiscoveryClientForConfig := .ok { ServerPreferredResources := (resourceLists, none) } }

/-! ## The search the specification describes -/

/-- A direct match: the lowercased key equals the plural name, the singular name
or the lowercased kind of the resource. -/
def matchesDirectly (toLower : String → String) (lowerKey : String) (r : APIResource) : Bool :=
  decide (lowerKey = r.Name) || decide (lowerKey = r.SingularName) ||
    decide (lowerKey = toLower r.Kind)

/-- A short-name match: the lowercased key equals one of the lowercased short
names of the resource. -/
def matchesShortName (toLower : String → String) (lowerKey : String) (r : APIResource) : Bool :=
  r.ShortNames.any (fun shortName => decide (lowerKey = toLower shortName))

/-- The match test of the specification: a direct match or a short-name match. -/
def matchesKey (toLower : String → String) (lowerKey : String) (r : APIResource) : Bool :=
  matchesDirectly toLower lowerKey r || matchesShortName toLower lowerKey r

/-- The short-circuiting search of the specification: lists in order and, within
a list, resources in order, returning at the first resource that matches,
together with the list that holds it. -/
def searchFirstMatch (toLower : String → String) (lowerKey : String) :
    List APIResourceList → Option (APIResourceList × APIResource)
  | [] => none
  | l :: rest =>
    match l.APIResources.find? (matchesKey toLower lowerKey) with
    | some r => some (l, r)
    | none => searchFirstMatch toLower lowerKey rest

/-- What resolution does with a matched resource `r` found in a list whose
GroupVersion string is `groupVersion`: parse the string and write the two parts
to the descriptor, or fail with the parse error. -/
def attachGroupVersion (groupVersion : String) (r : APIResource) :
    Except LookupError APIResource :=
  match ParseGroupVersion groupVersion with
  | .error err => .error (.parsingGroupVersion err)
  | .ok gv => .ok { r with Group := gv.Group, Version := gv.Version }

/-- Resolution as the specification describes it: a short-circuiting search,
then the group and version of the owning list, or the not-found error. -/
def searchLookup (toLower : String → String) (resourceLists : List APIResourceList)
    (key : String) : Except LookupError APIResource :=
  match searchFirstMatch toLower (toLower key) resourceLists with
  | some (l, r) => attachGroupVersion l.GroupVersion r
  | none => .error (.unableToFind key)

/-- No resource of any of the lists matches the key. -/
def noMatchIn (toLower : String → String) (lowerKey : String)
    (resourceLists : List APIResourceList) : Prop :=
  ∀ l ∈ resourceLists, ∀ r ∈ l.APIResources, matchesKey toLower lowerKey r = false

instance (toLower : String → String) (lowerKey : String) (resourceLists : List APIResourceList) :
    Decidable (noMatchIn toLower lowerKey resourceLists) := by
  unfold noMatchIn; infer_instance

/-- The resource has an empty plural name, an empty singular name, an empty kind
or an empty short name. -/
def hasEmptyField (r : APIResource) : Bool :=
  decide (r.Name = "") || decide (r.SingularName = "") || decide (r.Kind = "") ||
    r.ShortNames.any (fun shortName => decide (shortName = ""))

/-! ## Sample inputs -/

/-- The resource `pods` of the core group as a server lists it. -/
def pods : APIResource :=
  { Name := "pods", SingularName := "pod", Namespaced := true, Group := "", Version := "",
    Kind := "Pod", Verbs := ["get", "list"], ShortNames := ["po"], Categories := ["all"] }

/-- The resource `deployments` as a server lists it. -/
def deployments : APIResource :=
  { Name := "deployments", SingularName := "deployment", Namespaced := true, Group := "",
    Version := "", Kind := "Deployment", Verbs := ["get", "list"], ShortNames := ["deploy"],
    Categories := ["all"] }

/-- The resource `services`, with the short name "svc". -/
def services : APIResource :=
  { Name := "services", SingularName := "service", Namespaced := true, Group := "", Version := "",
    Kind := "Service", Verbs := ["get", "list"], ShortNames := ["svc"], Categories := ["all"] }

/-- A resource whose plural name is "svc" and that has no short names. -/
def svcPlural : APIResource :=
  { Name := "svc", SingularName := "", Namespaced := false, Group := "", Version := "",
    Kind := "Svc", Verbs := [], ShortNames := [], Categories := [] }

/-- A resource whose plural and singular names contain a capital letter. -/
def capitalPods : APIResource :=
  { Name := "Pods", SingularName := "Pod", Namespaced := true, Group := "", Version := "",
    Kind := "PodKind", Verbs := [], ShortNames := [], Categories := [] }

/-- The resource `widgets` of the group "example.com". -/
def widgets : APIResource :=
  { Name := "widgets", SingularName := "widget", Namespaced := true, Group := "example.com",
    Version := "v1alpha1", Kind := "Widget", Verbs := [], ShortNames := ["wd"],
    Categories := [] }

/-! ## The loops and the search -/

theorem shortNameLoop_none (toLower : String → String) (lowerKey : String) (r : APIResource)
    (shortNames : List String) :
    shortNameLoop toLower lowerKey r shortNames none =
      if shortNames.any (fun shortName => decide (lowerKey = toLower shortName)) then some r
      else none := by
  induction shortNames with
  | nil => simp [shortNameLoop]
  | cons a rest ih =>
    by_cases h : lowerKey = toLower a
    · simp [shortNameLoop, h]
    · simp [shortNameLoop, h, ih]

theorem resourceLoop_none (toLower : String → String) (lowerKey : String)
    (resources : List APIResource) :
    resourceLoop toLower lowerKey resources none =
      resources.find? (matchesKey toLower lowerKey) := by
  induction resources with
  | nil => simp [resourceLoop]
  | cons r rest ih =>
    by_cases hd : lowerKey = r.Name ∨ lowerKey = r.SingularName ∨ lowerKey = toLower r.Kind
    · have hm : matchesKey toLower lowerKey r = true := by
        rcases hd with h | h | h <;> simp [matchesKey, matchesDirectly, h]
      simp [resourceLoop, hd, List.find?_cons, hm]
    · have hd3 := hd
      simp only [not_or] at hd3
      by_cases hs : r.ShortNames.any (fun shortName => decide (lowerKey = toLower shortName)) = true
      · have hm : matchesKey toLower lowerKey r = true := by
          simp [matchesKey, matchesShortName, hs]
        simp [resourceLoop, hd, shortNameLoop_none, hs, List.find?_cons, hm]
      · have hm : matchesKey toLower lowerKey r = false := by
          simp only [Bool.not_eq_true] at hs
          simp [matchesKey, matchesDirectly, matchesShortName, hd3.1, hd3.2.1, hd3.2.2, hs]
        simp only [Bool.not_eq_true] at hs
        simp [resourceLoop, hd, shortNameLoop_none, hs, List.find?_cons, hm, ih]

theorem listLoop_none (toLower : String → String) (lowerKey : String)
    (resourceLists : List APIResourceList) :
    listLoop toLower lowerKey resourceLists none =
      match searchFirstMatch toLower lowerKey resourceLists with
      | some (l, r) => (attachGroupVersion l.GroupVersion r).map some
      | none => .ok none := by
  induction resourceLists with
  | nil => simp [listLoop, searchFirstMatch]
  | cons l rest ih =>
    simp only [listLoop, searchFirstMatch, resourceLoop_none]
    cases hf : l.APIResources.find? (matchesKey toLower lowerKey) with
    | none => simpa using ih
    | some r =>
      simp only [attachGroupVersion]
      cases ParseGroupVersion l.GroupVersion <;> rfl

theorem LookupAPIResource_configOf (toLower : String → String)
    (resourceLists : List APIResourceList) (key : String) :
    LookupAPIResource toLower (configOf resourceLists) key =
      searchLookup toLower resourceLists key := by
  simp only [LookupAPIResource, configOf, listLoop_none, searchLookup]
  cases searchFirstMatch toLower (toLower key) resourceLists with
  | none => rfl
  | some p =>
    obtain ⟨l, r⟩ := p
    simp only [attachGroupVersion]
    cases ParseGroupVersion l.GroupVersion <;> rfl

/-! ## Facts about `ParseGroupVersion` -/

theorem length_eq_zero_iff (s : String) : s.length = 0 ↔ s = "" := by
  obtain ⟨l⟩ := s
  show l.length = 0 ↔ String.mk l = String.mk []
  rw [List.length_eq_zero]
  constructor
  · intro h; rw [h]
  · intro h; exact congrArg String.data h

theorem data_append3 (g v : String) : (g ++ "/" ++ v).data = g.data ++ '/' :: v.data := by
  rw [String.data_append, String.data_append]
  show (g.data ++ ['/']) ++ v.data = _
  rw [List.append_assoc]
  rfl

theorem ParseGroupVersion_no_slash (s : String) (h : '/' ∉ s.data) :
    ParseGroupVersion s = .ok { Group := "", Version := s } := by
  unfold ParseGroupVersion
  by_cases h0 : s.length = 0 ∨ s = "/"
  · rcases h0 with h0 | h0
    · have : s = "" := (length_eq_zero_iff s).mp h0
      subst this
      rfl
    · subst h0
      exact absurd (by decide) h
  · rw [if_neg h0]
    have hc : s.data.count '/' = 0 := List.count_eq_zero_of_not_mem h
    rw [hc]

theorem takeWhile_ne_append (g v : List Char) (h : '/' ∉ g) :
    (g ++ '/' :: v).takeWhile (fun c => c != '/') = g := by
  induction g with
  | nil => simp
  | cons a rest ih =>
    have ha : a ≠ '/' := fun e => h (by simp [e])
    have hr : '/' ∉ rest := fun e => h (List.mem_cons_of_mem _ e)
    simp [List.takeWhile_cons, ha, ih hr]

theorem dropWhile_ne_append (g v : List Char) (h : '/' ∉ g) :
    (g ++ '/' :: v).dropWhile (fun c => c != '/') = '/' :: v := by
  induction g with
  | nil => simp
  | cons a rest ih =>
    have ha : a ≠ '/' := fun e => h (by simp [e])
    have hr : '/' ∉ rest := fun e => h (List.mem_cons_of_mem _ e)
    simp [List.dropWhile_cons, ha, ih hr]

theorem ParseGroupVersion_one_slash (g v : String) (hg : '/' ∉ g.data) (hv : '/' ∉ v.data) :
    ParseGroupVersion (g ++ "/" ++ v) = .ok { Group := g, Version := v } := by
  have hdata : (g ++ "/" ++ v).data = g.data ++ '/' :: v.data := data_append3 g v
  unfold ParseGroupVersion
  by_cases h0 : (g ++ "/" ++ v).length = 0 ∨ g ++ "/" ++ v = "/"
  · rw [if_pos h0]
    rcases h0 with h0 | h0
    · have hnil := congrArg String.data ((length_eq_zero_iff _).mp h0)
      rw [hdata] at hnil
      exact absurd hnil (by simp)
    · have hd : (g ++ "/" ++ v).data = ['/'] := by rw [h0]
      rw [hdata] at hd
      have hgnil : g.data = [] := by
        cases hgd : g.data with
        | nil => rfl
        | cons a rest =>
          rw [hgd] at hd hg
          simp at hd
      rw [hgnil] at hd
      simp at hd
      have hg' : g = "" := String.ext hgnil
      have hv' : v = "" := String.ext hd
      rw [hg', hv']
  · rw [if_neg h0]
    have hc : (g ++ "/" ++ v).data.count '/' = 1 := by
      rw [hdata, List.count_append, List.count_cons_self,
        List.count_eq_zero_of_not_mem hg, List.count_eq_zero_of_not_mem hv]
    rw [hc]
    simp only [hdata, takeWhile_ne_append _ _ hg, dropWhile_ne_append _ _ hg, List.drop_one,
      List.tail_cons]

theorem ParseGroupVersion_many_slashes (s : String) (h : 2 ≤ s.data.count '/') :
    ParseGroupVersion s = .error ("unexpected GroupVersion string: " ++ s) := by
  unfold ParseGroupVersion
  by_cases h0 : s.length = 0 ∨ s = "/"
  · exfalso
    rcases h0 with h0 | h0
    · have : s = "" := (length_eq_zero_iff s).mp h0
      subst this
      revert h
      decide
    · subst h0
      revert h
      decide
  · rw [if_neg h0]
    obtain ⟨n, hn⟩ : ∃ n, s.data.count '/' = n + 2 := ⟨s.data.count '/' - 2, by omega⟩
    rw [hn]
    split
    · rename_i e; omega
    · rename_i e; omega
    · rfl
/-! ## Facts about the search -/

theorem find?_first (p : APIResource → Bool) (before after : List APIResource) (r : APIResource)
    (hbefore : ∀ x ∈ before, p x = false) (hr : p r = true) :
    (before ++ r :: after).find? p = some r := by
  induction before with
  | nil => simp [List.find?_cons, hr]
  | cons b rest ih =>
    have hb : p b = false := hbefore b (List.mem_cons_self _ _)
    have hrest : ∀ x ∈ rest, p x = false := fun x hx => hbefore x (List.mem_cons_of_mem _ hx)
    simp [List.find?_cons, hb, ih hrest]

theorem find?_some_split (p : APIResource → Bool) (resources : List APIResource) (r : APIResource)
    (h : resources.find? p = some r) :
    ∃ before after, resources = before ++ r :: after ∧ (∀ x ∈ before, p x = false) ∧
      p r = true := by
  induction resources with
  | nil => simp at h
  | cons a rest ih =>
    by_cases ha : p a = true
    · simp only [List.find?_cons, ha, Option.some.injEq] at h
      subst h
      exact ⟨[], rest, rfl, by simp, ha⟩
    · simp only [Bool.not_eq_true] at ha
      simp only [List.find?_cons, ha] at h
      obtain ⟨before, after, heq, hb, hr⟩ := ih h
      refine ⟨a :: before, after, by simp [heq], ?_, hr⟩
      intro x hx
      rcases List.mem_cons.mp hx with hxa | hxb
      · rw [hxa]; exact ha
      · exact hb x hxb

theorem searchFirstMatch_skip (toLower : String → String) (lowerKey : String)
    (pre rest : List APIResourceList) (hpre : noMatchIn toLower lowerKey pre) :
    searchFirstMatch toLower lowerKey (pre ++ rest) = searchFirstMatch toLower lowerKey rest := by
  induction pre with
  | nil => rfl
  | cons l pre ih =>
    have hl : l.APIResources.find? (matchesKey toLower lowerKey) = none := by
      rw [List.find?_eq_none]
      intro x hx
      simp [hpre l (List.mem_cons_self _ _) x hx]
    have hrest : noMatchIn toLower lowerKey pre :=
      fun l' hl' => hpre l' (List.mem_cons_of_mem _ hl')
    simp [searchFirstMatch, hl, ih hrest]

theorem searchFirstMatch_first (toLower : String → String) (lowerKey : String)
    (pre post : List APIResourceList) (groupVersion : String)
    (before after : List APIResource) (r : APIResource)
    (hpre : noMatchIn toLower lowerKey pre)
    (hbefore : ∀ x ∈ before, matchesKey toLower lowerKey x = false)
    (hr : matchesKey toLower lowerKey r = true) :
    searchFirstMatch toLower lowerKey (pre ++ ⟨groupVersion, before ++ r :: after⟩ :: post) =
      some (⟨groupVersion, before ++ r :: after⟩, r) := by
  rw [searchFirstMatch_skip toLower lowerKey pre _ hpre]
  simp [searchFirstMatch, find?_first _ before after r hbefore hr]

theorem searchFirstMatch_eq_none (toLower : String → String) (lowerKey : String)
    (resourceLists : List APIResourceList) :
    searchFirstMatch toLower lowerKey resourceLists = none ↔
      noMatchIn toLower lowerKey resourceLists := by
  induction resourceLists with
  | nil => simp [searchFirstMatch, noMatchIn]
  | cons l rest ih =>
    cases hf : l.APIResources.find? (matchesKey toLower lowerKey) with
    | none =>
      simp only [searchFirstMatch, hf, ih]
      rw [List.find?_eq_none] at hf
      constructor
      · intro h l' hl' x hx
        rcases List.mem_cons.mp hl' with e | e
        · subst e; simpa using hf x hx
        · exact h l' e x hx
      · intro h l' hl'
        exact h l' (List.mem_cons_of_mem _ hl')
    | some r =>
      simp only [searchFirstMatch, hf]
      constructor
      · intro h; cases h
      · intro h
        obtain ⟨before, after, heq, _, hr⟩ := find?_some_split _ _ _ hf
        have hmem : r ∈ l.APIResources := by rw [heq]; simp
        have := h l (List.mem_cons_self _ _) r hmem
        rw [hr] at this; cases this

theorem searchFirstMatch_some_split (toLower : String → String) (lowerKey : String)
    (resourceLists : List APIResourceList) (l : APIResourceList) (r : APIResource)
    (h : searchFirstMatch toLower lowerKey resourceLists = some (l, r)) :
    ∃ pre post before after, resourceLists = pre ++ l :: post ∧
      l.APIResources = before ++ r :: after ∧ noMatchIn toLower lowerKey pre ∧
      (∀ x ∈ before, matchesKey toLower lowerKey x = false) ∧
      matchesKey toLower lowerKey r = true := by
  induction resourceLists with
  | nil => simp [searchFirstMatch] at h
  | cons a rest ih =>
    cases hf : a.APIResources.find? (matchesKey toLower lowerKey) with
    | none =>
      simp only [searchFirstMatch, hf] at h
      obtain ⟨pre, post, before, after, heq, hl, hpre, hb, hr⟩ := ih h
      refine ⟨a :: pre, post, before, after, by simp [heq], hl, ?_, hb, hr⟩
      intro l' hl' x hx
      rcases List.mem_cons.mp hl' with e | e
      · subst e
        rw [List.find?_eq_none] at hf
        simpa using hf x hx
      · exact hpre l' e x hx
    | some r' =>
      simp only [searchFirstMatch, hf, Option.some.injEq, Prod.mk.injEq] at h
      obtain ⟨h1, h2⟩ := h
      subst h1; subst h2
      obtain ⟨before, after, heq, hb, hr⟩ := find?_some_split _ _ _ hf
      exact ⟨[], rest, before, after, rfl, heq, by simp [noMatchIn], hb, hr⟩

theorem searchLookup_first (toLower : String → String) (key : String)
    (pre post : List APIResourceList) (groupVersion : String)
    (before after : List APIResource) (r : APIResource)
    (hpre : noMatchIn toLower (toLower key) pre)
    (hbefore : ∀ x ∈ before, matchesKey toLower (toLower key) x = false)
    (hr : matchesKey toLower (toLower key) r = true) :
    searchLookup toLower (pre ++ ⟨groupVersion, before ++ r :: after⟩ :: post) key =
      attachGroupVersion groupVersion r := by
  simp [searchLookup, searchFirstMatch_first toLower (toLower key) pre post groupVersion
    before after r hpre hbefore hr]

/-! ## C1: the loops refine the short-circuiting search -/

/-- C1. The nested loops of LookupAPIResource, with their shared flag and three
breaks, compute the short-circuiting search: the inner loops started with no
target return the first resource of the list that matches the lowercased key on
plural name, singular name, lowercased kind or a lowercased short name; the
whole function equals the search followed by the group and version of the
owning list; and once a first match is fixed, the resources after it in its
list and all later lists can be dropped without changing the result. -/
theorem lookup_refines_short_circuit_search (toLower : String → String) :
    (∀ (lowerKey : String) (resources : List APIResource),
      resourceLoop toLower lowerKey resources none =
        resources.find? (matchesKey toLower lowerKey)) ∧
    (∀ (resourceLists : List APIResourceList) (key : String),
      LookupAPIResource toLower (configOf resourceLists) key =
        searchLookup toLower resourceLists key) ∧
    (∀ (key : String) (pre post : List APIResourceList) (groupVersion : String)
      (before after : List APIResource) (r : APIResource),
      noMatchIn toLower (toLower key) pre →
      (∀ x ∈ before, matchesKey toLower (toLower key) x = false) →
      matchesKey toLower (toLower key) r = true →
      LookupAPIResource toLower
          (configOf (pre ++ ⟨groupVersion, before ++ r :: after⟩ :: post)) key =
        LookupAPIResource toLower (configOf (pre ++ [⟨groupVersion, before ++ [r]⟩])) key ∧
      LookupAPIResource toLower
          (configOf (pre ++ ⟨groupVersion, before ++ r :: after⟩ :: post)) key =
        attachGroupVersion groupVersion r) := by
  refine ⟨resourceLoop_none toLower, LookupAPIResource_configOf toLower, ?_⟩
  intro key pre post groupVersion before after r hpre hbefore hr
  rw [LookupAPIResource_configOf, LookupAPIResource_configOf,
    searchLookup_first toLower key pre post groupVersion before after r hpre hbefore hr,
    searchLookup_first toLower key pre [] groupVersion before [] r hpre hbefore hr]
  exact ⟨rfl, rfl⟩

/-- Witness for C1: key "PO" against a list with a non-matching resource before
pods, a second matching resource after it and a later list that matches too. -/
theorem lookup_refines_short_circuit_search_witness :
    noMatchIn asciiLower (asciiLower "PO") [⟨"apps/v1", [deployments]⟩] ∧
    (∀ x ∈ [deployments], matchesKey asciiLower (asciiLower "PO") x = false) ∧
    matchesKey asciiLower (asciiLower "PO") pods = true ∧
    LookupAPIResource asciiLower
        (configOf ([⟨"apps/v1", [deployments]⟩] ++
          ⟨"v1", [deployments] ++ pods :: [{ pods with Kind := "Other" }]⟩ ::
            [⟨"extensions/v1beta1", [pods]⟩])) "PO" =
      attachGroupVersion "v1" pods :=
  ⟨by decide, by decide, by decide,
    ((lookup_refines_short_circuit_search asciiLower).2.2 "PO" [⟨"apps/v1", [deployments]⟩]
      [⟨"extensions/v1beta1", [pods]⟩] "v1" [deployments] [{ pods with Kind := "Other" }] pods
      (by decide) (by decide) (by decide)).2⟩

/-! ## C2: which match wins -/

theorem matchesKey_of_direct (toLower : String → String) (lowerKey : String) (r : APIResource)
    (h : matchesDirectly toLower lowerKey r = true) : matchesKey toLower lowerKey r = true := by
  simp [matchesKey, h]

theorem matchesKey_eq_false (toLower : String → String) (lowerKey : String) (r : APIResource) :
    matchesKey toLower lowerKey r = false ↔
      matchesDirectly toLower lowerKey r = false ∧ matchesShortName toLower lowerKey r = false := by
  simp [matchesKey]

/-- C2, the claim refuted. For the key "svc" and the one list "v1" holding
services (short name "svc") and then a resource with plural name "svc", the
first resource that matches on plural name, singular name or kind is the
second one, services matches only through its short name, and
LookupAPIResource returns services. -/
theorem direct_match_not_preferred :
    [services, svcPlural].find? (matchesDirectly asciiLower (asciiLower "svc")) = some svcPlural ∧
    matchesDirectly asciiLower (asciiLower "svc") services = false ∧
    matchesShortName asciiLower (asciiLower "svc") services = true ∧
    LookupAPIResource asciiLower (configOf [⟨"v1", [services, svcPlural]⟩]) "svc" =
      .ok { services with Group := "", Version := "v1" } ∧
    LookupAPIResource asciiLower (configOf [⟨"v1", [services, svcPlural]⟩]) "svc" ≠
      attachGroupVersion "v1" svcPlural := by
  decide

/-- C2, amended. LookupAPIResource returns the first resource, in list order and
then resource order, that matches on plural name, singular name, kind or a
short name. A resource that matches on plural name, singular name or kind is
returned when no earlier resource matches in any of the four ways; and
whatever resource is returned, also one that matches only through a short
name, no earlier resource matches on plural name, singular name or kind, nor
through a short name. -/
theorem first_match_in_any_field_wins (toLower : String → String) :
    (∀ (key : String) (pre post : List APIResourceList) (groupVersion : String)
      (before after : List APIResource) (r : APIResource),
      noMatchIn toLower (toLower key) pre →
      (∀ x ∈ before, matchesKey toLower (toLower key) x = false) →
      matchesDirectly toLower (toLower key) r = true →
      LookupAPIResource toLower
          (configOf (pre ++ ⟨groupVersion, before ++ r :: after⟩ :: post)) key =
        attachGroupVersion groupVersion r) ∧
    (∀ (resourceLists : List APIResourceList) (key : String) (d : APIResource),
      LookupAPIResource toLower (configOf resourceLists) key = .ok d →
      ∃ pre post l before after r,
        resourceLists = pre ++ l :: post ∧ l.APIResources = before ++ r :: after ∧
        attachGroupVersion l.GroupVersion r = .ok d ∧
        matchesKey toLower (toLower key) r = true ∧
        (∀ l' ∈ pre, ∀ x ∈ l'.APIResources,
          matchesDirectly toLower (toLower key) x = false ∧
            matchesShortName toLower (toLower key) x = false) ∧
        (∀ x ∈ before,
          matchesDirectly toLower (toLower key) x = false ∧
            matchesShortName toLower (toLower key) x = false)) := by
  constructor
  · intro key pre post groupVersion before after r hpre hbefore hr
    rw [LookupAPIResource_configOf]
    exact searchLookup_first toLower key pre post groupVersion before after r hpre hbefore
      (matchesKey_of_direct toLower _ r hr)
  · intro resourceLists key d h
    rw [LookupAPIResource_configOf, searchLookup] at h
    cases hs : searchFirstMatch toLower (toLower key) resourceLists with
    | none => rw [hs] at h; cases h
    | some p =>
      obtain ⟨l, r⟩ := p
      rw [hs] at h
      obtain ⟨pre, post, before, after, heq, hl, hpre, hb, hr⟩ :=
        searchFirstMatch_some_split toLower (toLower key) resourceLists l r hs
      refine ⟨pre, post, l, before, after, r, heq, hl, h, hr, ?_, ?_⟩
      · intro l' hl' x hx
        exact (matchesKey_eq_false toLower _ x).mp (hpre l' hl' x hx)
      · intro x hx
        exact (matchesKey_eq_false toLower _ x).mp (hb x hx)

/-- Witness for the amended C2: key "svc" with the direct match listed before
the short-name match, after a list without a match. -/
theorem first_match_in_any_field_wins_witness :
    noMatchIn asciiLower (asciiLower "svc") [⟨"apps/v1", [deployments]⟩] ∧
    (∀ x ∈ [pods], matchesKey asciiLower (asciiLower "svc") x = false) ∧
    matchesDirectly asciiLower (asciiLower "svc") svcPlural = true ∧
    LookupAPIResource asciiLower
        (configOf ([⟨"apps/v1", [deployments]⟩] ++ ⟨"v1", [pods] ++ svcPlural :: [services]⟩ :: []))
        "svc" = attachGroupVersion "v1" svcPlural :=
  ⟨by decide, by decide, by decide,
    (first_match_in_any_field_wins asciiLower).1 "svc" [⟨"apps/v1", [deployments]⟩] [] "v1"
      [pods] [services] svcPlural (by decide) (by decide) (by decide)⟩

/-! ## C3: where letter case is ignored -/

theorem matchesKey_iff (toLower : String → String) (lowerKey : String) (r : APIResource) :
    matchesKey toLower lowerKey r = true ↔
      lowerKey = r.Name ∨ lowerKey = r.SingularName ∨ lowerKey = toLower r.Kind ∨
        ∃ shortName ∈ r.ShortNames, lowerKey = toLower shortName := by
  simp [matchesKey, matchesDirectly, matchesShortName, or_assoc]

theorem resourceLoop_single (toLower : String → String) (lowerKey : String) (r : APIResource) :
    resourceLoop toLower lowerKey [r] none = some r ↔ matchesKey toLower lowerKey r = true := by
  rw [resourceLoop_none]
  by_cases h : matchesKey toLower lowerKey r = true
  · simp [List.find?_cons, h]
  · simp only [Bool.not_eq_true] at h
    simp [List.find?_cons, h]

/-- C3, the claim refuted. The key "Pods" is identical to the plural name of the
resource, so it equals it ignoring letter case, and the key "POD" equals the
singular name "Pod" ignoring letter case; the loop body selects the resource
for neither key and LookupAPIResource reports not-found for both. -/
theorem capital_plural_name_not_matched :
    "Pods" = capitalPods.Name ∧
    asciiLower "POD" = asciiLower capitalPods.SingularName ∧
    resourceLoop asciiLower (asciiLower "Pods") [capitalPods] none = none ∧
    resourceLoop asciiLower (asciiLower "POD") [capitalPods] none = none ∧
    LookupAPIResource asciiLower (configOf [⟨"v1", [capitalPods]⟩]) "Pods" =
      .error (.unableToFind "Pods") ∧
    LookupAPIResource asciiLower (configOf [⟨"v1", [capitalPods]⟩]) "POD" =
      .error (.unableToFind "POD") := by
  decide

/-- C3, amended. The key, the kind and the short names are lowercased before the
comparison, the plural and singular names are not. The loop body selects a
resource exactly when the lowercased key equals its plural name, its singular
name, its lowercased kind or one of its lowercased short names. So a key that
equals the kind or a short name ignoring letter case always matches, and a
key that equals the plural or singular name ignoring letter case matches when
that name is its own lowercase form. -/
theorem case_insensitive_on_key_kind_short_names (toLower : String → String) (key : String)
    (r : APIResource) :
    (resourceLoop toLower (toLower key) [r] none = some r ↔
      toLower key = r.Name ∨ toLower key = r.SingularName ∨ toLower key = toLower r.Kind ∨
        ∃ shortName ∈ r.ShortNames, toLower key = toLower shortName) ∧
    (toLower key = toLower r.Kind → resourceLoop toLower (toLower key) [r] none = some r) ∧
    (∀ shortName ∈ r.ShortNames, toLower key = toLower shortName →
      resourceLoop toLower (toLower key) [r] none = some r) ∧
    (toLower r.Name = r.Name → toLower key = toLower r.Name →
      resourceLoop toLower (toLower key) [r] none = some r) ∧
    (toLower r.SingularName = r.SingularName → toLower key = toLower r.SingularName →
      resourceLoop toLower (toLower key) [r] none = some r) := by
  have hiff := (resourceLoop_single toLower (toLower key) r).trans
    (matchesKey_iff toLower (toLower key) r)
  refine ⟨hiff, ?_, ?_, ?_, ?_⟩
  · intro h
    exact hiff.mpr (Or.inr (Or.inr (Or.inl h)))
  · intro shortName hmem h
    exact hiff.mpr (Or.inr (Or.inr (Or.inr ⟨shortName, hmem, h⟩)))
  · intro hlow h
    exact hiff.mpr (Or.inl (h.trans hlow))
  · intro hlow h
    exact hiff.mpr (Or.inr (Or.inl (h.trans hlow)))

/-- Witness for the amended C3: the key "PODS" against pods, whose plural name
is lowercase. -/
theorem case_insensitive_on_key_kind_short_names_witness :
    asciiLower pods.Name = pods.Name ∧ asciiLower "PODS" = asciiLower pods.Name ∧
    resourceLoop asciiLower (asciiLower "PODS") [pods] none = some pods :=
  ⟨by decide, by decide,
    (case_insensitive_on_key_kind_short_names asciiLower "PODS" pods).2.2.2.1
      (by decide) (by decide)⟩

/-! ## C4: group and version of the returned descriptor -/

theorem attachGroupVersion_ok (groupVersion : String) (r d : APIResource)
    (h : attachGroupVersion groupVersion r = .ok d) :
    ∃ gv, ParseGroupVersion groupVersion = .ok gv ∧
      d = { r with Group := gv.Group, Version := gv.Version } := by
  unfold attachGroupVersion at h
  cases hp : ParseGroupVersion groupVersion with
  | error e => rw [hp] at h; cases h
  | ok gv =>
    rw [hp] at h
    simp only [Except.ok.injEq] at h
    exact ⟨gv, rfl, h.symm⟩

theorem lookup_ok_split (toLower : String → String) (resourceLists : List APIResourceList)
    (key : String) (d : APIResource)
    (h : LookupAPIResource toLower (configOf resourceLists) key = .ok d) :
    ∃ pre post l before after r gv,
      resourceLists = pre ++ l :: post ∧ l.APIResources = before ++ r :: after ∧
      noMatchIn toLower (toLower key) pre ∧
      (∀ x ∈ before, matchesKey toLower (toLower key) x = false) ∧
      matchesKey toLower (toLower key) r = true ∧
      ParseGroupVersion l.GroupVersion = .ok gv ∧
      d = { r with Group := gv.Group, Version := gv.Version } := by
  rw [LookupAPIResource_configOf, searchLookup] at h
  cases hs : searchFirstMatch toLower (toLower key) resourceLists with
  | none => rw [hs] at h; cases h
  | some p =>
    obtain ⟨l, r⟩ := p
    rw [hs] at h
    obtain ⟨pre, post, before, after, heq, hl, hpre, hb, hr⟩ :=
      searchFirstMatch_some_split toLower (toLower key) resourceLists l r hs
    obtain ⟨gv, hgv, hd⟩ := attachGroupVersion_ok _ _ _ h
    exact ⟨pre, post, l, before, after, r, gv, heq, hl, hpre, hb, hr, hgv, hd⟩

/-- C4. For every successful LookupAPIResource call there are an owning list
and a matched resource in it, the first match of the search, such that the
GroupVersion string of that list parses and the Group and Version of the
returned descriptor are the parsed group and version. A string "g/v" parses to
g and v, a string without '/' to the empty group and the string as version.
The Group and Version the matched resource carries inside its list do not
reach the result. -/
theorem returned_group_version_of_owning_list (toLower : String → String) :
    (∀ (resourceLists : List APIResourceList) (key : String) (d : APIResource),
      LookupAPIResource toLower (configOf resourceLists) key = .ok d →
      ∃ pre post l before after r gv,
        resourceLists = pre ++ l :: post ∧ l.APIResources = before ++ r :: after ∧
        noMatchIn toLower (toLower key) pre ∧
        (∀ x ∈ before, matchesKey toLower (toLower key) x = false) ∧
        matchesKey toLower (toLower key) r = true ∧
        ParseGroupVersion l.GroupVersion = .ok gv ∧
        d.Group = gv.Group ∧ d.Version = gv.Version) ∧
    (∀ g v : String, '/' ∉ g.data → '/' ∉ v.data →
      ParseGroupVersion (g ++ "/" ++ v) = .ok { Group := g, Version := v }) ∧
    (∀ s : String, '/' ∉ s.data → ParseGroupVersion s = .ok { Group := "", Version := s }) ∧
    (∀ (key : String) (pre post : List APIResourceList) (groupVersion : String)
      (before after : List APIResource) (r : APIResource) (carriedGroup carriedVersion : String),
      noMatchIn toLower (toLower key) pre →
      (∀ x ∈ before, matchesKey toLower (toLower key) x = false) →
      matchesKey toLower (toLower key) r = true →
      LookupAPIResource toLower (configOf (pre ++
          ⟨groupVersion,
            before ++ { r with Group := carriedGroup, Version := carriedVersion } :: after⟩ ::
            post)) key =
        LookupAPIResource toLower
          (configOf (pre ++ ⟨groupVersion, before ++ r :: after⟩ :: post)) key) := by
  refine ⟨?_, ParseGroupVersion_one_slash, ParseGroupVersion_no_slash, ?_⟩
  · intro resourceLists key d h
    obtain ⟨pre, post, l, before, after, r, gv, heq, hl, hpre, hb, hr, hgv, hd⟩ :=
      lookup_ok_split toLower resourceLists key d h
    exact ⟨pre, post, l, before, after, r, gv, heq, hl, hpre, hb, hr, hgv, by rw [hd], by rw [hd]⟩
  · intro key pre post groupVersion before after r carriedGroup carriedVersion hpre hbefore hr
    have hr' : matchesKey toLower (toLower key)
        { r with Group := carriedGroup, Version := carriedVersion } = true := hr
    rw [LookupAPIResource_configOf, LookupAPIResource_configOf,
      searchLookup_first toLower key pre post groupVersion before after r hpre hbefore hr,
      searchLookup_first toLower key pre post groupVersion before after _ hpre hbefore hr']
    unfold attachGroupVersion
    cases ParseGroupVersion groupVersion <;> rfl

/-- Witness for C4: deployments listed under "apps/v1" while carrying the group
"stale" and the version "v0" in the list; the key "deploy" returns it with
group "apps" and version "v1". -/
theorem returned_group_version_of_owning_list_witness :
    LookupAPIResource asciiLower
        (configOf [⟨"apps/v1", [{ deployments with Group := "stale", Version := "v0" }]⟩])
        "deploy" = .ok { deployments with Group := "apps", Version := "v1" } ∧
    ParseGroupVersion "apps/v1" = .ok { Group := "apps", Version := "v1" } ∧
    ∃ pre post l before after r gv,
      [(⟨"apps/v1", [{ deployments with Group := "stale", Version := "v0" }]⟩ : APIResourceList)]
        = pre ++ l :: post ∧
      l.APIResources = before ++ r :: after ∧
      noMatchIn asciiLower (asciiLower "deploy") pre ∧
      (∀ x ∈ before, matchesKey asciiLower (asciiLower "deploy") x = false) ∧
      matchesKey asciiLower (asciiLower "deploy") r = true ∧
      ParseGroupVersion l.GroupVersion = .ok gv ∧
      "apps" = gv.Group ∧ "v1" = gv.Version :=
  ⟨by decide, by decide,
    (returned_group_version_of_owning_list asciiLower).1
      [⟨"apps/v1", [{ deployments with Group := "stale", Version := "v0" }]⟩] "deploy"
      { deployments with Group := "apps", Version := "v1" } (by decide)⟩

/-! ## C5: the not-found error -/

/-- C5. After a successful discovery query LookupAPIResource fails with the
not-found error exactly when no resource of any list matches the key on plural
name, singular name, kind or a short name, and the error then carries the key
as the caller gave it. A resource that matches through a short name, in any
list, excludes the not-found error. -/
theorem not_found_iff_no_match (toLower : String → String)
    (resourceLists : List APIResourceList) (key : String) :
    (∀ k : String,
      LookupAPIResource toLower (configOf resourceLists) key = .error (.unableToFind k) ↔
        k = key ∧ noMatchIn toLower (toLower key) resourceLists) ∧
    (∀ l ∈ resourceLists, ∀ r ∈ l.APIResources,
      matchesShortName toLower (toLower key) r = true →
      ∀ k : String,
        LookupAPIResource toLower (configOf resourceLists) key ≠ .error (.unableToFind k)) := by
  have hmain : ∀ k : String,
      LookupAPIResource toLower (configOf resourceLists) key = .error (.unableToFind k) ↔
        k = key ∧ noMatchIn toLower (toLower key) resourceLists := by
    intro k
    rw [LookupAPIResource_configOf, searchLookup]
    cases hs : searchFirstMatch toLower (toLower key) resourceLists with
    | none =>
      have hno := (searchFirstMatch_eq_none toLower (toLower key) resourceLists).mp hs
      constructor
      · intro h
        simp only [Except.error.injEq, LookupError.unableToFind.injEq] at h
        exact ⟨h.symm, hno⟩
      · intro h
        rw [h.1]
    | some p =>
      obtain ⟨l, r⟩ := p
      constructor
      · intro h
        exfalso
        simp only [attachGroupVersion] at h
        cases hp : ParseGroupVersion l.GroupVersion with
        | error e => rw [hp] at h; simp at h
        | ok gv => rw [hp] at h; cases h
      · intro h
        exfalso
        have := (searchFirstMatch_eq_none toLower (toLower key) resourceLists).mpr h.2
        rw [hs] at this
        cases this
  refine ⟨hmain, ?_⟩
  intro l hl r hr hshort k h
  have hno := ((hmain k).mp h).2 l hl r hr
  rw [matchesKey_eq_false] at hno
  rw [hno.2] at hshort
  cases hshort

/-- Witness for C5: the key "SVC" against services, which matches it through
its short name only. -/
theorem not_found_iff_no_match_witness :
    matchesDirectly asciiLower (asciiLower "SVC") services = false ∧
    matchesShortName asciiLower (asciiLower "SVC") services = true ∧
    ∀ k : String,
      LookupAPIResource asciiLower (configOf [⟨"apps/v1", [deployments]⟩, ⟨"v1", [pods, services]⟩])
        "SVC" ≠ .error (.unableToFind k) :=
  ⟨by decide, by decide,
    (not_found_iff_no_match asciiLower [⟨"apps/v1", [deployments]⟩, ⟨"v1", [pods, services]⟩]
      "SVC").2 ⟨"v1", [pods, services]⟩ (by decide) services (by decide) (by decide)⟩

/-! ## C6: a GroupVersion string that does not parse -/

theorem searchFirstMatch_in_list (toLower : String → String) (lowerKey : String)
    (pre post : List APIResourceList) (l : APIResourceList)
    (hpre : noMatchIn toLower lowerKey pre)
    (hl : ∃ r ∈ l.APIResources, matchesKey toLower lowerKey r = true) :
    ∃ r, r ∈ l.APIResources ∧ matchesKey toLower lowerKey r = true ∧
      searchFirstMatch toLower lowerKey (pre ++ l :: post) = some (l, r) := by
  rw [searchFirstMatch_skip toLower lowerKey pre _ hpre]
  cases hf : l.APIResources.find? (matchesKey toLower lowerKey) with
  | none =>
    exfalso
    rw [List.find?_eq_none] at hf
    obtain ⟨r, hr, hm⟩ := hl
    exact hf r hr hm
  | some r =>
    obtain ⟨before, after, heq, _, hr⟩ := find?_some_split _ _ _ hf
    refine ⟨r, by rw [heq]; simp, hr, ?_⟩
    simp [searchFirstMatch, hf]

/-- C6. When the first list that holds a matching resource has a GroupVersion
string with more than one '/', LookupAPIResource returns the error "Error
parsing GroupVersion" with the parser's message, whatever the later lists
hold: the result is no descriptor and not the not-found error. -/
theorem unparsable_group_version_is_parse_error (toLower : String → String) (key : String)
    (pre post : List APIResourceList) (l : APIResourceList)
    (hpre : noMatchIn toLower (toLower key) pre)
    (hl : ∃ r ∈ l.APIResources, matchesKey toLower (toLower key) r = true)
    (hgv : 2 ≤ l.GroupVersion.data.count '/') :
    LookupAPIResource toLower (configOf (pre ++ l :: post)) key =
        .error (.parsingGroupVersion ("unexpected GroupVersion string: " ++ l.GroupVersion)) ∧
    (∀ d, LookupAPIResource toLower (configOf (pre ++ l :: post)) key ≠ .ok d) ∧
    (∀ k, LookupAPIResource toLower (configOf (pre ++ l :: post)) key ≠
      .error (.unableToFind k)) := by
  obtain ⟨r, _, _, hs⟩ := searchFirstMatch_in_list toLower (toLower key) pre post l hpre hl
  have hres : LookupAPIResource toLower (configOf (pre ++ l :: post)) key =
      .error (.parsingGroupVersion ("unexpected GroupVersion string: " ++ l.GroupVersion)) := by
    rw [LookupAPIResource_configOf, searchLookup, hs]
    simp only [attachGroupVersion, ParseGroupVersion_many_slashes _ hgv]
  refine ⟨hres, ?_, ?_⟩
  · intro d h
    rw [hres] at h
    cases h
  · intro k h
    rw [hres] at h
    cases h

/-- Witness for C6: pods listed under "a/b/c" after a list without a match and
before a list "v1" that holds pods as well; the key "pods" gives the parse
error. -/
theorem unparsable_group_version_is_parse_error_witness :
    noMatchIn asciiLower (asciiLower "pods") [⟨"apps/v1", [deployments]⟩] ∧
    (∃ r ∈ (⟨"a/b/c", [services, pods]⟩ : APIResourceList).APIResources,
      matchesKey asciiLower (asciiLower "pods") r = true) ∧
    LookupAPIResource asciiLower
        (configOf ([⟨"apps/v1", [deployments]⟩] ++
          ⟨"a/b/c", [services, pods]⟩ :: [⟨"v1", [pods]⟩])) "pods" =
      .error (.parsingGroupVersion "unexpected GroupVersion string: a/b/c") :=
  ⟨by decide, by decide,
    (unparsable_group_version_is_parse_error asciiLower "pods" [⟨"apps/v1", [deployments]⟩]
      [⟨"v1", [pods]⟩] ⟨"a/b/c", [services, pods]⟩ (by decide) (by decide) (by decide)).1⟩

/-! ## C7: keys that differ in letter case -/

/-- C7. Two keys with the same lowercase form give the same result against the
same lists, or both give the not-found error, each naming its own key; so they
return the same descriptor or both fail. For a resource with plural name
"pods", singular name "pod" and kind "Pod" that no earlier resource precedes
with a match for "pod", the keys "pod", "Pod" and "POD" all return it with
the group and version of its list. -/
theorem same_result_for_keys_differing_in_case (toLower : String → String) :
    (∀ (resourceLists : List APIResourceList) (key₁ key₂ : String),
      toLower key₁ = toLower key₂ →
      (LookupAPIResource toLower (configOf resourceLists) key₁ =
          LookupAPIResource toLower (configOf resourceLists) key₂ ∨
        (LookupAPIResource toLower (configOf resourceLists) key₁ = .error (.unableToFind key₁) ∧
          LookupAPIResource toLower (configOf resourceLists) key₂ =
            .error (.unableToFind key₂))) ∧
      (∀ d, LookupAPIResource toLower (configOf resourceLists) key₁ = .ok d ↔
        LookupAPIResource toLower (configOf resourceLists) key₂ = .ok d)) ∧
    (∀ (pre post : List APIResourceList) (groupVersion : String)
      (before after : List APIResource) (r : APIResource),
      r.Name = "pods" → r.SingularName = "pod" → r.Kind = "Pod" →
      noMatchIn asciiLower "pod" pre →
      (∀ x ∈ before, matchesKey asciiLower "pod" x = false) →
      ∀ key ∈ ["pod", "Pod", "POD"],
        LookupAPIResource asciiLower
            (configOf (pre ++ ⟨groupVersion, before ++ r :: after⟩ :: post)) key =
          attachGroupVersion groupVersion r) := by
  constructor
  · intro resourceLists key₁ key₂ hlow
    have hcases : LookupAPIResource toLower (configOf resourceLists) key₁ =
          LookupAPIResource toLower (configOf resourceLists) key₂ ∨
        (LookupAPIResource toLower (configOf resourceLists) key₁ = .error (.unableToFind key₁) ∧
          LookupAPIResource toLower (configOf resourceLists) key₂ =
            .error (.unableToFind key₂)) := by
      rw [LookupAPIResource_configOf, LookupAPIResource_configOf, searchLookup, searchLookup,
        hlow]
      cases searchFirstMatch toLower (toLower key₂) resourceLists with
      | none => exact Or.inr ⟨rfl, rfl⟩
      | some p => exact Or.inl rfl
    refine ⟨hcases, ?_⟩
    intro d
    rcases hcases with h | ⟨h₁, h₂⟩
    · rw [h]
    · rw [h₁, h₂]
      constructor <;> intro h <;> cases h
  · intro pre post groupVersion before after r hname hsing hkind hpre hbefore key hkey
    have hlow : asciiLower key = "pod" := by
      simp only [List.mem_cons, List.mem_singleton, List.not_mem_nil, or_false] at hkey
      rcases hkey with h | h | h <;> subst h <;> decide
    have hr : matchesKey asciiLower (asciiLower key) r = true := by
      rw [hlow]
      simp [matchesKey, matchesDirectly, hsing]
    rw [LookupAPIResource_configOf]
    rw [← hlow] at hpre hbefore
    exact searchLookup_first asciiLower key pre post groupVersion before after r hpre hbefore hr

/-- Witness for C7: the keys "pod" and "POD" against pods listed under "v1"
after a list without a match. -/
theorem same_result_for_keys_differing_in_case_witness :
    asciiLower "pod" = asciiLower "POD" ∧
    (LookupAPIResource asciiLower (configOf [⟨"apps/v1", [deployments]⟩, ⟨"v1", [pods]⟩]) "pod" =
      .ok { pods with Group := "", Version := "v1" } ↔
    LookupAPIResource asciiLower (configOf [⟨"apps/v1", [deployments]⟩, ⟨"v1", [pods]⟩]) "POD" =
      .ok { pods with Group := "", Version := "v1" }) ∧
    LookupAPIResource asciiLower (configOf [⟨"apps/v1", [deployments]⟩, ⟨"v1", [pods]⟩]) "POD" =
      .ok { pods with Group := "", Version := "v1" } :=
  ⟨by decide,
    ((same_result_for_keys_differing_in_case asciiLower).1
      [⟨"apps/v1", [deployments]⟩, ⟨"v1", [pods]⟩] "pod" "POD" (by decide)).2
      { pods with Group := "", Version := "v1" },
    by decide⟩

/-! ## C8: the name of the CRD -/

/-- C8. The object name of the result of CrdForAPIResource is groupQualifiedName
of the resource, for every validation value: the plural name, a '.' and the
group when the group is not empty, the bare plural name when it is. With
plural name "widgets" the group "example.com" gives "widgets.example.com" and
the empty group gives "widgets". -/
theorem crd_name_is_group_qualified_name {V : Type} (apiResource : APIResource)
    (validation : Option V) :
    (CrdForAPIResource apiResource validation).ObjectMeta.Name =
      groupQualifiedName apiResource ∧
    (apiResource.Group ≠ "" →
      (CrdForAPIResource apiResource validation).ObjectMeta.Name =
        apiResource.Name ++ "." ++ apiResource.Group) ∧
    (apiResource.Group = "" →
      (CrdForAPIResource apiResource validation).ObjectMeta.Name = apiResource.Name) ∧
    (CrdForAPIResource widgets validation).ObjectMeta.Name = "widgets.example.com" ∧
    (CrdForAPIResource { widgets with Group := "" } validation).ObjectMeta.Name = "widgets" := by
  have hwidgets : groupQualifiedName widgets = "widgets.example.com" := by decide
  have hcore : groupQualifiedName { widgets with Group := "" } = "widgets" := by decide
  refine ⟨rfl, ?_, ?_, hwidgets, hcore⟩
  · intro h
    have hlen : ¬ apiResource.Group.length = 0 := fun e => h ((length_eq_zero_iff _).mp e)
    show groupQualifiedName apiResource = _
    unfold groupQualifiedName
    rw [if_neg hlen]
  · intro h
    have hlen : apiResource.Group.length = 0 := (length_eq_zero_iff _).mpr h
    show groupQualifiedName apiResource = _
    unfold groupQualifiedName
    rw [if_pos hlen]

/-- Witness for C8: deployments with the group "apps" and no validation. -/
theorem crd_name_is_group_qualified_name_witness :
    ({ deployments with Group := "apps" } : APIResource).Group ≠ "" ∧
    (CrdForAPIResource { deployments with Group := "apps" } (none : Option Unit)).ObjectMeta.Name =
      "deployments" ++ "." ++ "apps" :=
  ⟨by decide,
    (crd_name_is_group_qualified_name { deployments with Group := "apps" }
      (none : Option Unit)).2.1 (by decide)⟩

/-! ## C9: the scope of the CRD -/

/-- C9. The scope of the result of CrdForAPIResource is NamespaceScoped when the
Namespaced flag of the resource is true and ClusterScoped when it is false;
the two constants differ, no other value occurs, and two inputs with the same
flag give the same scope whatever their other fields and validation values. -/
theorem crd_scope_follows_namespaced_flag {V : Type} (apiResource : APIResource)
    (validation : Option V) :
    (apiResource.Namespaced = true →
      (CrdForAPIResource apiResource validation).Spec.Scope = NamespaceScoped) ∧
    (apiResource.Namespaced = false →
      (CrdForAPIResource apiResource validation).Spec.Scope = ClusterScoped) ∧
    ((CrdForAPIResource apiResource validation).Spec.Scope = NamespaceScoped ∨
      (CrdForAPIResource apiResource validation).Spec.Scope = ClusterScoped) ∧
    NamespaceScoped ≠ ClusterScoped ∧
    (∀ (other : APIResource) (otherValidation : Option V),
      other.Namespaced = apiResource.Namespaced →
      (CrdForAPIResource other otherValidation).Spec.Scope =
        (CrdForAPIResource apiResource validation).Spec.Scope) := by
  refine ⟨?_, ?_, ?_, by decide, ?_⟩
  · intro h
    simp [CrdForAPIResource, h]
  · intro h
    simp [CrdForAPIResource, h]
  · cases h : apiResource.Namespaced
    · right; simp [CrdForAPIResource, h]
    · left; simp [CrdForAPIResource, h]
  · intro other otherValidation h
    simp [CrdForAPIResource, h]

/-- Witness for C9: pods is namespaced, the resource with plural name "svc" is
not. -/
theorem crd_scope_follows_namespaced_flag_witness :
    pods.Namespaced = true ∧
    (CrdForAPIResource pods (none : Option Unit)).Spec.Scope = "Namespaced" ∧
    svcPlural.Namespaced = false ∧
    (CrdForAPIResource svcPlural (some ())).Spec.Scope = "Cluster" :=
  ⟨by decide, (crd_scope_follows_namespaced_flag pods (none : Option Unit)).1 (by decide),
    by decide, (crd_scope_follows_namespaced_flag svcPlural (some ())).2.1 (by decide)⟩

/-! ## C10: the fields copied by the builder -/

/-- C10. CrdForAPIResource copies the Group, the Version, the plural name and the
kind of the resource and the validation value as they are: empty strings stay
empty, a validation value that was not supplied stays absent. The singular
name and the short names of the resource do not reach Names, whose Singular,
ShortNames and ListKind are empty. -/
theorem crd_fields_copied_verbatim {V : Type} (apiResource : APIResource)
    (validation : Option V) :
    (CrdForAPIResource apiResource validation).Spec.Group = apiResource.Group ∧
    (CrdForAPIResource apiResource validation).Spec.Version = apiResource.Version ∧
    (CrdForAPIResource apiResource validation).Spec.Names.Plural = apiResource.Name ∧
    (CrdForAPIResource apiResource validation).Spec.Names.Kind = apiResource.Kind ∧
    (CrdForAPIResource apiResource validation).Spec.Validation = validation ∧
    (CrdForAPIResource apiResource (none : Option V)).Spec.Validation = none ∧
    (CrdForAPIResource { apiResource with Group := "", Version := "" } validation).Spec.Group
      = "" ∧
    (CrdForAPIResource { apiResource with Group := "", Version := "" } validation).Spec.Version
      = "" ∧
    (CrdForAPIResource apiResource validation).Spec.Names.Singular = "" ∧
    (CrdForAPIResource apiResource validation).Spec.Names.ShortNames = [] ∧
    (CrdForAPIResource apiResource validation).Spec.Names.ListKind = "" :=
  ⟨rfl, rfl, rfl, rfl, rfl, rfl, rfl, rfl, rfl, rfl, rfl⟩

/-! ## C11: resolution followed by the builder -/

/-- C11. When the first match for the key is a resource r of a list whose
GroupVersion string is g, a '/' and v, with g not empty, LookupAPIResource
succeeds and the CRD built from its result with no validation has the name
made of the plural name of r, a '.' and g, the group g, the version v, the
plural name and kind of r, the scope given by the Namespaced flag of r, and no
validation. -/
theorem crd_of_resolved_resource {V : Type} (toLower : String → String) (key : String)
    (pre post : List APIResourceList) (g v : String) (before after : List APIResource)
    (r : APIResource)
    (hg : g ≠ "") (hgs : '/' ∉ g.data) (hvs : '/' ∉ v.data)
    (hpre : noMatchIn toLower (toLower key) pre)
    (hbefore : ∀ x ∈ before, matchesKey toLower (toLower key) x = false)
    (hr : matchesKey toLower (toLower key) r = true) :
    ∃ d, LookupAPIResource toLower
        (configOf (pre ++ ⟨g ++ "/" ++ v, before ++ r :: after⟩ :: post)) key = .ok d ∧
      d = { r with Group := g, Version := v } ∧
      (CrdForAPIResource d (none : Option V)).ObjectMeta.Name = r.Name ++ "." ++ g ∧
      (CrdForAPIResource d (none : Option V)).Spec.Group = g ∧
      (CrdForAPIResource d (none : Option V)).Spec.Version = v ∧
      (CrdForAPIResource d (none : Option V)).Spec.Names.Plural = r.Name ∧
      (CrdForAPIResource d (none : Option V)).Spec.Names.Kind = r.Kind ∧
      (CrdForAPIResource d (none : Option V)).Spec.Scope =
        (if r.Namespaced then NamespaceScoped else ClusterScoped) ∧
      (CrdForAPIResource d (none : Option V)).Spec.Validation = none := by
  refine ⟨{ r with Group := g, Version := v }, ?_, rfl, ?_, rfl, rfl, rfl, rfl, rfl, rfl⟩
  · rw [LookupAPIResource_configOf,
      searchLookup_first toLower key pre post _ before after r hpre hbefore hr]
    simp only [attachGroupVersion, ParseGroupVersion_one_slash g v hgs hvs]
  · have hlen : ¬ g.length = 0 := fun e => hg ((length_eq_zero_iff g).mp e)
    show groupQualifiedName { r with Group := g, Version := v } = _
    unfold groupQualifiedName
    rw [if_neg hlen]

/-- Witness for C11, the end-to-end scenario: the lists "apps/v1" with
deployments and "/v1" with pods; the key "deploy" resolves to deployments with
group "apps" and version "v1" and the CRD built from it is named
"deployments.apps". -/
theorem crd_of_resolved_resource_witness :
    LookupAPIResource asciiLower
        (configOf [⟨"apps/v1", [deployments]⟩, ⟨"/v1", [pods]⟩]) "deploy" =
      .ok { deployments with Group := "apps", Version := "v1" } ∧
    ∃ d, LookupAPIResource asciiLower
        (configOf ([] ++ ⟨"apps" ++ "/" ++ "v1", [] ++ deployments :: []⟩ :: [⟨"/v1", [pods]⟩]))
        "deploy" = .ok d ∧
      d = { deployments with Group := "apps", Version := "v1" } ∧
      (CrdForAPIResource d (none : Option Unit)).ObjectMeta.Name = "deployments" ++ "." ++ "apps" ∧
      (CrdForAPIResource d (none : Option Unit)).Spec.Group = "apps" ∧
      (CrdForAPIResource d (none : Option Unit)).Spec.Version = "v1" ∧
      (CrdForAPIResource d (none : Option Unit)).Spec.Names.Plural = "deployments" ∧
      (CrdForAPIResource d (none : Option Unit)).Spec.Names.Kind = "Deployment" ∧
      (CrdForAPIResource d (none : Option Unit)).Spec.Scope =
        (if deployments.Namespaced then NamespaceScoped else ClusterScoped) ∧
      (CrdForAPIResource d (none : Option Unit)).Spec.Validation = none :=
  ⟨by decide,
    crd_of_resolved_resource asciiLower "deploy" [] [⟨"/v1", [pods]⟩] "apps" "v1" [] []
      deployments (by decide) (by decide) (by decide) (by decide) (by decide) (by decide)⟩

/-! ## C12: the versioned key -/

/-- C12. The result of resourceKey is the plural name, a '.', the group or
"core" when the group is empty, a '/', and the version or "v1" when the
version is empty; each default depends on its own field only, in all four
combinations of empty and non-empty group and version. The function takes the
resource by value and assigns only its local variables, so it is a function
of the resource and there is no state of the resource for it to change. -/
theorem resourceKey_defaults (apiResource : APIResource) :
    resourceKey apiResource =
      apiResource.Name ++ "." ++
        (if apiResource.Group = "" then "core" else apiResource.Group) ++ "/" ++
        (if apiResource.Version = "" then "v1" else apiResource.Version) ∧
    (apiResource.Group = "" → apiResource.Version = "" →
      resourceKey apiResource = apiResource.Name ++ "." ++ "core" ++ "/" ++ "v1") ∧
    (apiResource.Group = "" → apiResource.Version ≠ "" →
      resourceKey apiResource =
        apiResource.Name ++ "." ++ "core" ++ "/" ++ apiResource.Version) ∧
    (apiResource.Group ≠ "" → apiResource.Version = "" →
      resourceKey apiResource =
        apiResource.Name ++ "." ++ apiResource.Group ++ "/" ++ "v1") ∧
    (apiResource.Group ≠ "" → apiResource.Version ≠ "" →
      resourceKey apiResource =
        apiResource.Name ++ "." ++ apiResource.Group ++ "/" ++ apiResource.Version) := by
  have hmain : resourceKey apiResource =
      apiResource.Name ++ "." ++
        (if apiResource.Group = "" then "core" else apiResource.Group) ++ "/" ++
        (if apiResource.Version = "" then "v1" else apiResource.Version) := by
    unfold resourceKey
    simp only [length_eq_zero_iff]
  refine ⟨hmain, ?_, ?_, ?_, ?_⟩
  · intro hg hv; rw [hmain, if_pos hg, if_pos hv]
  · intro hg hv; rw [hmain, if_pos hg, if_neg hv]
  · intro hg hv; rw [hmain, if_neg hg, if_pos hv]
  · intro hg hv; rw [hmain, if_neg hg, if_neg hv]

/-- Witness for C12: the four combinations on pods, with and without the group
"apps" and the version "v2". -/
theorem resourceKey_defaults_witness :
    resourceKey pods = "pods.core/v1" ∧
    resourceKey { pods with Version := "v2" } = "pods.core/v2" ∧
    resourceKey { pods with Group := "apps" } = "pods.apps/v1" ∧
    resourceKey { pods with Group := "apps", Version := "v2" } = "pods.apps/v2" ∧
    ({ pods with Group := "apps" } : APIResource).Group ≠ "" ∧
    ({ pods with Group := "apps" } : APIResource).Version = "" ∧
    resourceKey { pods with Group := "apps" } =
      ({ pods with Group := "apps" } : APIResource).Name ++ "." ++
        ({ pods with Group := "apps" } : APIResource).Group ++ "/" ++ "v1" :=
  ⟨by decide, by decide, by decide, by decide, by decide, by decide,
    (resourceKey_defaults { pods with Group := "apps" }).2.2.2.1 (by decide) (by decide)⟩

/-! ## C13: the defaults are not stored -/

theorem ParseGroupVersion_ok_parts (s : String) (gv : GroupVersion)
    (h : ParseGroupVersion s = .ok gv) :
    (∃ rest, s.data = gv.Group.data ++ rest) ∧ (∃ front, s.data = front ++ gv.Version.data) := by
  unfold ParseGroupVersion at h
  by_cases h0 : s.length = 0 ∨ s = "/"
  · rw [if_pos h0] at h
    simp only [Except.ok.injEq] at h
    subst h
    exact ⟨⟨s.data, rfl⟩, ⟨s.data, (List.append_nil _).symm⟩⟩
  · rw [if_neg h0] at h
    split at h
    · simp only [Except.ok.injEq] at h
      subst h
      exact ⟨⟨s.data, rfl⟩, ⟨[], rfl⟩⟩
    · simp only [Except.ok.injEq] at h
      subst h
      refine ⟨⟨s.data.dropWhile (fun c => c != '/'), ?_⟩,
        ⟨s.data.takeWhile (fun c => c != '/') ++ (s.data.dropWhile (fun c => c != '/')).take 1,
          ?_⟩⟩
      · exact (List.takeWhile_append_dropWhile _ _).symm
      · show s.data = _ ++ List.drop 1 _
        rw [List.append_assoc, List.take_append_drop, List.takeWhile_append_dropWhile]
    · cases h

theorem ParseGroupVersion_leading_slash (v : String) (hv : '/' ∉ v.data) :
    ParseGroupVersion ("/" ++ v) = .ok { Group := "", Version := v } := by
  have h := ParseGroupVersion_one_slash "" v (by decide) hv
  have he : ("" : String) ++ "/" = "/" := by decide
  rw [he] at h
  exact h

/-- C13. Resolution stores what the parser returns and no default. When the
first match is a resource r of a list whose GroupVersion string has no '/',
the returned descriptor is r with the empty Group and that string as Version,
so the empty string gives the empty Group and Version; a string that starts
with '/' and has no other gives the empty Group as well. The Group of every
returned descriptor is an initial part and the Version a final part of the
GroupVersion string of the owning list, so "core" and "v1" are on a descriptor
only when the string holds them. For a descriptor with the empty Group,
groupQualifiedName is the bare plural name and resourceKey renders "core". -/
theorem display_defaults_not_stored (toLower : String → String) :
    (∀ (key : String) (pre post : List APIResourceList) (before after : List APIResource)
      (r : APIResource),
      noMatchIn toLower (toLower key) pre →
      (∀ x ∈ before, matchesKey toLower (toLower key) x = false) →
      matchesKey toLower (toLower key) r = true →
      (∀ s : String, '/' ∉ s.data →
        LookupAPIResource toLower (configOf (pre ++ ⟨s, before ++ r :: after⟩ :: post)) key =
          .ok { r with Group := "", Version := s }) ∧
      (∀ v : String, '/' ∉ v.data →
        LookupAPIResource toLower
            (configOf (pre ++ ⟨"/" ++ v, before ++ r :: after⟩ :: post)) key =
          .ok { r with Group := "", Version := v }) ∧
      LookupAPIResource toLower (configOf (pre ++ ⟨"", before ++ r :: after⟩ :: post)) key =
        .ok { r with Group := "", Version := "" }) ∧
    (∀ (resourceLists : List APIResourceList) (key : String) (d : APIResource),
      LookupAPIResource toLower (configOf resourceLists) key = .ok d →
      ∃ pre post l before after r,
        resourceLists = pre ++ l :: post ∧ l.APIResources = before ++ r :: after ∧
        noMatchIn toLower (toLower key) pre ∧
        (∀ x ∈ before, matchesKey toLower (toLower key) x = false) ∧
        matchesKey toLower (toLower key) r = true ∧
        (∃ rest, l.GroupVersion.data = d.Group.data ++ rest) ∧
        (∃ front, l.GroupVersion.data = front ++ d.Version.data)) ∧
    (∀ d : APIResource, d.Group = "" →
      groupQualifiedName d = d.Name ∧
      resourceKey d =
        d.Name ++ "." ++ "core" ++ "/" ++ (if d.Version = "" then "v1" else d.Version)) ∧
    ParseGroupVersion "v1" = .ok { Group := "", Version := "v1" } ∧
    ParseGroupVersion "/v1" = .ok { Group := "", Version := "v1" } ∧
    ParseGroupVersion "" = .ok { Group := "", Version := "" } := by
  refine ⟨?_, ?_, ?_, by decide, by decide, by decide⟩
  · intro key pre post before after r hpre hbefore hr
    refine ⟨?_, ?_, ?_⟩
    · intro s hs
      rw [LookupAPIResource_configOf,
        searchLookup_first toLower key pre post s before after r hpre hbefore hr]
      simp only [attachGroupVersion, ParseGroupVersion_no_slash s hs]
    · intro v hv
      rw [LookupAPIResource_configOf,
        searchLookup_first toLower key pre post _ before after r hpre hbefore hr]
      simp only [attachGroupVersion, ParseGroupVersion_leading_slash v hv]
    · rw [LookupAPIResource_configOf,
        searchLookup_first toLower key pre post "" before after r hpre hbefore hr]
      simp only [attachGroupVersion, ParseGroupVersion_no_slash "" (by decide)]
  · intro resourceLists key d h
    obtain ⟨pre, post, l, before, after, r, gv, heq, hl, hpre, hb, hr, hgv, hd⟩ :=
      lookup_ok_split toLower resourceLists key d h
    obtain ⟨hgroup, hversion⟩ := ParseGroupVersion_ok_parts _ _ hgv
    refine ⟨pre, post, l, before, after, r, heq, hl, hpre, hb, hr, ?_, ?_⟩
    · rw [hd]; exact hgroup
    · rw [hd]; exact hversion
  · intro d hd
    have hlen : d.Group.length = 0 := (length_eq_zero_iff _).mpr hd
    constructor
    · unfold groupQualifiedName
      rw [if_pos hlen]
    · unfold resourceKey
      simp only [length_eq_zero_iff, hd, if_true]

/-- Witness for C13: pods found under "v1" keeps the empty group, its qualified
name is "pods" and its versioned key is "pods.core/v1". -/
theorem display_defaults_not_stored_witness :
    noMatchIn asciiLower (asciiLower "po") [⟨"apps/v1", [deployments]⟩] ∧
    matchesKey asciiLower (asciiLower "po") pods = true ∧
    '/' ∉ "v1".data ∧
    LookupAPIResource asciiLower
        (configOf ([⟨"apps/v1", [deployments]⟩] ++ ⟨"v1", [services] ++ pods :: []⟩ :: []))
        "po" = .ok { pods with Group := "", Version := "v1" } ∧
    groupQualifiedName { pods with Group := "", Version := "v1" } = "pods" ∧
    resourceKey { pods with Group := "", Version := "v1" } = "pods.core/v1" :=
  ⟨by decide, by decide, by decide,
    ((display_defaults_not_stored asciiLower).1 "po" [⟨"apps/v1", [deployments]⟩] [] [services]
      [] pods (by decide) (by decide) (by decide)).1 "v1" (by decide),
    by decide, by decide⟩

/-! ## C14: the identity of the CRD -/

/-- C14. The result of CrdForAPIResource has the kind "CustomResourceDefinition"
and the API version "apiextensions.k8s.io/v1beta1", for every resource and
every validation value; any two inputs give the same TypeMeta. -/
theorem crd_type_meta_fixed {V : Type} (apiResource : APIResource) (validation : Option V) :
    (CrdForAPIResource apiResource validation).TypeMeta.Kind = "CustomResourceDefinition" ∧
    (CrdForAPIResource apiResource validation).TypeMeta.APIVersion =
      "apiextensions.k8s.io/v1beta1" ∧
    (∀ (W : Type) (other : APIResource) (otherValidation : Option W),
      (CrdForAPIResource other otherValidation).TypeMeta =
        (CrdForAPIResource apiResource validation).TypeMeta) :=
  ⟨rfl, rfl, fun _ _ _ => rfl⟩

/-! ## C15: a discovery query that fails -/

/-- C15. When building the discovery client fails, LookupAPIResource returns the
error "Error creating discovery client" with the cause, and when listing the
server-preferred resources fails, the error "Error listing api resources"
with the cause, for every key and whatever lists came with the error. In both
cases the result is no descriptor and not the not-found error. -/
theorem discovery_failure_is_returned (toLower : String → String) (config : Config)
    (key : String) :
    (∀ cause : String, config.NewDiscoveryClientForConfig = .error cause →
      LookupAPIResource toLower config key = .error (.creatingDiscoveryClient cause)) ∧
    (∀ (client : DiscoveryClient) (resourceLists : List APIResourceList) (cause : String),
      config.NewDiscoveryClientForConfig = .ok client →
      client.ServerPreferredResources = (resourceLists, some cause) →
      LookupAPIResource toLower config key = .error (.listingAPIResources cause)) ∧
    (((∃ cause : String, config.NewDiscoveryClientForConfig = .error cause) ∨
        (∃ (client : DiscoveryClient) (resourceLists : List APIResourceList) (cause : String),
          config.NewDiscoveryClientForConfig = .ok client ∧
          client.ServerPreferredResources = (resourceLists, some cause))) →
      (∀ d, LookupAPIResource toLower config key ≠ .ok d) ∧
      (∀ k, LookupAPIResource toLower config key ≠ .error (.unableToFind k))) := by
  have hclient : ∀ cause : String, config.NewDiscoveryClientForConfig = .error cause →
      LookupAPIResource toLower config key = .error (.creatingDiscoveryClient cause) := by
    intro cause h
    unfold LookupAPIResource
    rw [h]
  have hlist : ∀ (client : DiscoveryClient) (resourceLists : List APIResourceList)
      (cause : String), config.NewDiscoveryClientForConfig = .ok client →
      client.ServerPreferredResources = (resourceLists, some cause) →
      LookupAPIResource toLower config key = .error (.listingAPIResources cause) := by
    intro client resourceLists cause h hc
    unfold LookupAPIResource
    rw [h]
    simp only [hc]
  refine ⟨hclient, hlist, ?_⟩
  intro h
  rcases h with ⟨cause, h⟩ | ⟨client, resourceLists, cause, h, hc⟩
  · rw [hclient cause h]
    exact ⟨fun d e => (by cases e), fun k e => (by cases e)⟩
  · rw [hlist client resourceLists cause h hc]
    exact ⟨fun d e => (by cases e), fun k e => (by cases e)⟩

/-- Witness for C15: listing fails with "timeout" although a list with pods came
back with the error; the key "pods" gives the listing error. -/
theorem discovery_failure_is_returned_witness :
    LookupAPIResource asciiLower
        { NewDiscoveryClientForConfig :=
            .ok { ServerPreferredResources := ([⟨"v1", [pods]⟩], some "timeout") } } "pods" =
      .error (.listingAPIResources "timeout") :=
  (discovery_failure_is_returned asciiLower
      { NewDiscoveryClientForConfig :=
          .ok { ServerPreferredResources := ([⟨"v1", [pods]⟩], some "timeout") } } "pods").2.1
    { ServerPreferredResources := ([⟨"v1", [pods]⟩], some "timeout") } [⟨"v1", [pods]⟩] "timeout"
    rfl rfl

/-! ## C16: the fields resolution leaves alone -/

/-- C16. For every successful LookupAPIResource call there is a matched
resource r, the first match of the search, such that the returned descriptor
is r with only Group and Version replaced: the plural name, singular name,
Namespaced flag, kind, verbs, short names and categories are those of r. -/
theorem resolution_changes_only_group_version (toLower : String → String)
    (resourceLists : List APIResourceList) (key : String) (d : APIResource)
    (h : LookupAPIResource toLower (configOf resourceLists) key = .ok d) :
    ∃ pre post l before after r,
      resourceLists = pre ++ l :: post ∧ l.APIResources = before ++ r :: after ∧
      noMatchIn toLower (toLower key) pre ∧
      (∀ x ∈ before, matchesKey toLower (toLower key) x = false) ∧
      matchesKey toLower (toLower key) r = true ∧
      d = { r with Group := d.Group, Version := d.Version } ∧
      d.Name = r.Name ∧ d.SingularName = r.SingularName ∧ d.Namespaced = r.Namespaced ∧
      d.Kind = r.Kind ∧ d.Verbs = r.Verbs ∧ d.ShortNames = r.ShortNames ∧
      d.Categories = r.Categories := by
  obtain ⟨pre, post, l, before, after, r, gv, heq, hl, hpre, hb, hr, _, hd⟩ :=
    lookup_ok_split toLower resourceLists key d h
  refine ⟨pre, post, l, before, after, r, heq, hl, hpre, hb, hr, ?_, ?_, ?_, ?_, ?_, ?_, ?_, ?_⟩
  all_goals rw [hd]

/-- Witness for C16: the key "svc" against services listed under "v1". -/
theorem resolution_changes_only_group_version_witness :
    LookupAPIResource asciiLower (configOf [⟨"apps/v1", [deployments]⟩, ⟨"v1", [pods, services]⟩])
        "svc" = .ok { services with Group := "", Version := "v1" } ∧
    ∃ pre post l before after r,
      [(⟨"apps/v1", [deployments]⟩ : APIResourceList), ⟨"v1", [pods, services]⟩] =
        pre ++ l :: post ∧
      l.APIResources = before ++ r :: after ∧
      noMatchIn asciiLower (asciiLower "svc") pre ∧
      (∀ x ∈ before, matchesKey asciiLower (asciiLower "svc") x = false) ∧
      matchesKey asciiLower (asciiLower "svc") r = true ∧
      ({ services with Group := "", Version := "v1" } : APIResource) =
        { r with Group := "", Version := "v1" } ∧
      "services" = r.Name ∧ "service" = r.SingularName ∧ true = r.Namespaced ∧
      "Service" = r.Kind ∧ ["get", "list"] = r.Verbs ∧ ["svc"] = r.ShortNames ∧
      ["all"] = r.Categories :=
  ⟨by decide,
    resolution_changes_only_group_version asciiLower
      [⟨"apps/v1", [deployments]⟩, ⟨"v1", [pods, services]⟩] "svc"
      { services with Group := "", Version := "v1" } (by decide)⟩

/-! ## C17: the versioned key is injective -/

theorem split_at_separator (c : Char) (a a' b b' : List Char) (ha : c ∉ a) (ha' : c ∉ a')
    (h : a ++ c :: b = a' ++ c :: b') : a = a' ∧ b = b' := by
  induction a generalizing a' with
  | nil =>
    cases a' with
    | nil => simpa using h
    | cons y rest =>
      simp only [List.nil_append, List.cons_append, List.cons.injEq] at h
      exact absurd (by rw [h.1]; simp) ha'
  | cons x rest ih =>
    cases a' with
    | nil =>
      simp only [List.nil_append, List.cons_append, List.cons.injEq] at h
      exact absurd (by rw [← h.1]; simp) ha
    | cons y rest' =>
      simp only [List.cons_append, List.cons.injEq] at h
      have hrest : c ∉ rest := fun e => ha (List.mem_cons_of_mem _ e)
      have hrest' : c ∉ rest' := fun e => ha' (List.mem_cons_of_mem _ e)
      obtain ⟨h1, h2⟩ := ih rest' hrest hrest' h.2
      exact ⟨by rw [h.1, h1], h2⟩

theorem resourceKey_data (r : APIResource) (hg : r.Group ≠ "") (hv : r.Version ≠ "") :
    (resourceKey r).data = r.Name.data ++ '.' :: (r.Group.data ++ '/' :: r.Version.data) := by
  unfold resourceKey
  simp only [length_eq_zero_iff, if_neg hg, if_neg hv, String.data_append]
  show ((r.Name.data ++ ['.']) ++ r.Group.data ++ ['/']) ++ r.Version.data = _
  simp only [List.append_assoc, List.singleton_append]
  rfl

/-- C17. For two resources whose group and version are not empty, whose plural
name holds no '.' and whose group holds no '/', equal results of resourceKey
imply equal plural name, equal group and equal version. -/
theorem resourceKey_injective (a b : APIResource)
    (hag : a.Group ≠ "") (hav : a.Version ≠ "") (hbg : b.Group ≠ "") (hbv : b.Version ≠ "")
    (han : '.' ∉ a.Name.data) (hbn : '.' ∉ b.Name.data)
    (hags : '/' ∉ a.Group.data) (hbgs : '/' ∉ b.Group.data)
    (h : resourceKey a = resourceKey b) :
    a.Name = b.Name ∧ a.Group = b.Group ∧ a.Version = b.Version := by
  have hdata := congrArg String.data h
  rw [resourceKey_data a hag hav, resourceKey_data b hbg hbv] at hdata
  obtain ⟨hname, hrest⟩ := split_at_separator '.' _ _ _ _ han hbn hdata
  obtain ⟨hgroup, hversion⟩ := split_at_separator '/' _ _ _ _ hags hbgs hrest
  exact ⟨String.ext hname, String.ext hgroup, String.ext hversion⟩

/-- Witness for C17: widgets and a copy of it with another kind and singular
name have the same key "widgets.example.com/v1alpha1". -/
theorem resourceKey_injective_witness :
    resourceKey widgets = resourceKey { widgets with Kind := "Gadget", SingularName := "" } ∧
    widgets.Name = ({ widgets with Kind := "Gadget", SingularName := "" } : APIResource).Name ∧
    widgets.Group = ({ widgets with Kind := "Gadget", SingularName := "" } : APIResource).Group ∧
    widgets.Version =
      ({ widgets with Kind := "Gadget", SingularName := "" } : APIResource).Version :=
  ⟨by decide,
    resourceKey_injective widgets { widgets with Kind := "Gadget", SingularName := "" }
      (by decide) (by decide) (by decide) (by decide) (by decide) (by decide) (by decide)
      (by decide) (by decide)⟩

/-! ## C18: the empty key -/

theorem asciiLower_eq_empty (s : String) : asciiLower s = "" ↔ s = "" := by
  constructor
  · intro h
    have hd := congrArg String.data h
    have hnil : s.data.map Char.toLower = [] := hd
    exact String.ext (List.map_eq_nil_iff.mp hnil)
  · intro h
    rw [h]
    rfl

theorem matchesKey_empty (toLower : String → String) (hlower : ∀ s, toLower s = "" ↔ s = "")
    (r : APIResource) : matchesKey toLower (toLower "") r = hasEmptyField r := by
  have h0 : toLower "" = "" := (hlower "").mpr rfl
  have hk : ∀ s : String, decide ("" = toLower s) = decide (s = "") := by
    intro s
    by_cases hs : s = ""
    · have : "" = toLower s := ((hlower s).mpr hs).symm
      rw [decide_eq_true this, decide_eq_true hs]
    · have : ¬ "" = toLower s := fun e => hs ((hlower s).mp e.symm)
      rw [decide_eq_false this, decide_eq_false hs]
  have hn : ∀ s : String, decide ("" = s) = decide (s = "") := by
    intro s
    by_cases hs : s = ""
    · rw [decide_eq_true hs.symm, decide_eq_true hs]
    · have : ¬ "" = s := fun e => hs e.symm
      rw [decide_eq_false this, decide_eq_false hs]
  simp only [matchesKey, matchesDirectly, matchesShortName, hasEmptyField, h0, hk, hn]

theorem attachGroupVersion_ne_unableToFind (groupVersion : String) (r : APIResource)
    (k : String) : attachGroupVersion groupVersion r ≠ .error (.unableToFind k) := by
  unfold attachGroupVersion
  cases ParseGroupVersion groupVersion with
  | error e => intro h; simp at h
  | ok gv => intro h; cases h

theorem hasEmptyField_eq_false (r : APIResource) :
    hasEmptyField r = false ↔
      r.Name ≠ "" ∧ r.SingularName ≠ "" ∧ r.Kind ≠ "" ∧ "" ∉ r.ShortNames := by
  simp only [hasEmptyField, Bool.or_eq_false_iff, decide_eq_false_iff_not, and_assoc]
  constructor
  · rintro ⟨h1, h2, h3, h4⟩
    refine ⟨h1, h2, h3, ?_⟩
    intro hmem
    have : r.ShortNames.any (fun shortName => decide (shortName = "")) = true :=
      List.any_eq_true.mpr ⟨"", hmem, by simp⟩
    rw [h4] at this
    cases this
  · rintro ⟨h1, h2, h3, h4⟩
    refine ⟨h1, h2, h3, ?_⟩
    cases hany : r.ShortNames.any (fun shortName => decide (shortName = "")) with
    | false => rfl
    | true =>
      obtain ⟨x, hx, hxe⟩ := List.any_eq_true.mp hany
      have : x = "" := by simpa using hxe
      rw [this] at hx
      exact absurd hx h4

/-- C18. Let the lowercase form of a string be empty exactly when the string is,
as with strings.ToLower. For the empty key a resource matches exactly when its
plural name, its singular name, its kind or one of its short names is empty,
an empty singular name alone being enough. LookupAPIResource then selects the
first such resource in list order and does not report not-found, and it
reports not-found for the empty key exactly when every resource of every list
has all these fields non-empty. -/
theorem empty_key_selects_first_empty_field (toLower : String → String)
    (hlower : ∀ s, toLower s = "" ↔ s = "") :
    (∀ r : APIResource, matchesKey toLower (toLower "") r = hasEmptyField r) ∧
    (∀ r : APIResource, r.SingularName = "" →
      resourceLoop toLower (toLower "") [r] none = some r) ∧
    (∀ (pre post : List APIResourceList) (groupVersion : String)
      (before after : List APIResource) (r : APIResource),
      (∀ l ∈ pre, ∀ x ∈ l.APIResources, hasEmptyField x = false) →
      (∀ x ∈ before, hasEmptyField x = false) →
      hasEmptyField r = true →
      LookupAPIResource toLower
          (configOf (pre ++ ⟨groupVersion, before ++ r :: after⟩ :: post)) "" =
        attachGroupVersion groupVersion r ∧
      ∀ k, LookupAPIResource toLower
          (configOf (pre ++ ⟨groupVersion, before ++ r :: after⟩ :: post)) "" ≠
        .error (.unableToFind k)) ∧
    (∀ resourceLists : List APIResourceList,
      LookupAPIResource toLower (configOf resourceLists) "" = .error (.unableToFind "") ↔
        ∀ l ∈ resourceLists, ∀ r ∈ l.APIResources,
          r.Name ≠ "" ∧ r.SingularName ≠ "" ∧ r.Kind ≠ "" ∧ "" ∉ r.ShortNames) := by
  have hmatch := matchesKey_empty toLower hlower
  refine ⟨hmatch, ?_, ?_, ?_⟩
  · intro r hs
    rw [resourceLoop_single, hmatch]
    simp [hasEmptyField, hs]
  · intro pre post groupVersion before after r hpre hbefore hr
    have hpre' : noMatchIn toLower (toLower "") pre := by
      intro l hl x hx
      rw [hmatch]
      exact hpre l hl x hx
    have hbefore' : ∀ x ∈ before, matchesKey toLower (toLower "") x = false := by
      intro x hx
      rw [hmatch]
      exact hbefore x hx
    have hr' : matchesKey toLower (toLower "") r = true := by
      rw [hmatch]
      exact hr
    have hres : LookupAPIResource toLower
        (configOf (pre ++ ⟨groupVersion, before ++ r :: after⟩ :: post)) "" =
        attachGroupVersion groupVersion r := by
      rw [LookupAPIResource_configOf]
      exact searchLookup_first toLower "" pre post groupVersion before after r hpre' hbefore' hr'
    refine ⟨hres, ?_⟩
    intro k
    rw [hres]
    exact attachGroupVersion_ne_unableToFind groupVersion r k
  · intro resourceLists
    rw [LookupAPIResource_configOf, searchLookup]
    cases hs : searchFirstMatch toLower (toLower "") resourceLists with
    | none =>
      have hno := (searchFirstMatch_eq_none toLower (toLower "") resourceLists).mp hs
      constructor
      · intro _ l hl r hr
        have := hno l hl r hr
        rw [hmatch] at this
        exact (hasEmptyField_eq_false r).mp this
      · intro _
        rfl
    | some p =>
      obtain ⟨l, r⟩ := p
      constructor
      · intro h
        exact absurd h (attachGroupVersion_ne_unableToFind l.GroupVersion r "")
      · intro h
        exfalso
        have hno : noMatchIn toLower (toLower "") resourceLists := by
          intro l' hl' x hx
          rw [hmatch]
          exact (hasEmptyField_eq_false x).mpr (h l' hl' x hx)
        have := (searchFirstMatch_eq_none toLower (toLower "") resourceLists).mpr hno
        rw [hs] at this
        cases this

/-- Witness for C18: a resource like deployments but with no singular name is
selected for the empty key, ahead of a later resource with an empty plural
name. -/
theorem empty_key_selects_first_empty_field_witness :
    (∀ s, asciiLower s = "" ↔ s = "") ∧
    (∀ l ∈ [(⟨"v1", [pods]⟩ : APIResourceList)], ∀ x ∈ l.APIResources,
      hasEmptyField x = false) ∧
    (∀ x ∈ [services], hasEmptyField x = false) ∧
    hasEmptyField { deployments with SingularName := "" } = true ∧
    LookupAPIResource asciiLower
        (configOf ([⟨"v1", [pods]⟩] ++
          ⟨"apps/v1",
            [services] ++ { deployments with SingularName := "" } ::
              [{ pods with Name := "" }]⟩ :: [])) "" =
      attachGroupVersion "apps/v1" { deployments with SingularName := "" } :=
  ⟨asciiLower_eq_empty, by decide, by decide, by decide,
    ((empty_key_selects_first_empty_field asciiLower asciiLower_eq_empty).2.2.1
      [⟨"v1", [pods]⟩] [] "apps/v1" [services] [{ pods with Name := "" }]
      { deployments with SingularName := "" } (by decide) (by decide) (by decide)).1⟩

end Federate
